import Mathlib

/-!
Shallow embedding of the context-database pruning utility
(scripts/utilities/optimize_context.py) and proofs about its behaviour.

Modelling conventions:
- SQLite rows are Lean structures; a table is a list of rows in stored
  (rowid) order.
- SQLite TEXT comparison under the default BINARY collation is modelled
  by code-point lexicographic comparison of character lists.
- The environment of a run (the wall clock read by datetime.now and
  whether the shutil.copy2 call succeeds) is an explicit input.
- The filesystem is the list of paths, relative to the project root,
  of the files that exist.
-/

namespace ContextOptimize

/-- Code-point lexicographic order on character lists: the model of the
SQLite BINARY collation used by the timestamp comparisons, since UTF-8
byte order agrees with code-point order. -/
def lexLt : List Char → List Char → Bool
  | [], [] => false
  | [], _ :: _ => true
  | _ :: _, [] => false
  | a :: as, b :: bs =>
    if a.toNat < b.toNat then true
    else if b.toNat < a.toNat then false
    else lexLt as bs

/-- Comparison of two TEXT values, as in the SQL conditions
"timestamp < ?" and "last_modified < ?". -/
def strLt (a b : String) : Bool := lexLt a.data b.data

/-- Python len on a string (number of code points). -/
def strLen (s : String) : Nat := s.data.length

/-- A row of the conversation_context table (fields used by the code).
The spec declares session_id to be the unique key of the table. -/
structure ConversationRow where
  session_id : String
  timestamp : String
  context_summary : String
deriving Repr, DecidableEq

/-- A row of the code_context table (fields used by the code).
file_path acts as the key within the store. -/
structure CodeContextRow where
  file_path : String
  last_modified : String
  complexity_score : Int
deriving Repr, DecidableEq

/-- The context database: the two tables, each in stored row order. -/
structure Store where
  conversations : List ConversationRow
  code_contexts : List CodeContextRow
deriving Repr, DecidableEq

/-- Environment inputs of one run: cutoff is the string
(datetime.now() - timedelta(days=max_context_age_days)).isoformat(),
stamp is datetime.now().strftime of the backup name pattern, and copyOk
says whether the shutil.copy2 call in backup_context succeeds (its
failure is caught and logged by the source). -/
structure Env where
  cutoff : String
  stamp : String
  copyOk : Bool
deriving Repr, DecidableEq

/-- World state: the optional store file, the existing files relative to
the project root, and the contents of the backup directory as pairs of
file name and snapshot. -/
structure World where
  store : Option Store
  fs : List String
  backups : List (String × Store)
deriving Repr, DecidableEq

/-- self.max_conversations = 10. -/
def max_conversations : Nat := 10

/-- self.max_context_age_days = 30; it only enters through Env.cutoff. -/
def max_context_age_days : Nat := 30

/-- self.max_summary_length = 500. -/
def max_summary_length : Nat := 500

/-- self.max_file_contexts = 50. -/
def max_file_contexts : Nat := 50

/-- The literal appended by the summary truncation. -/
def truncation_marker : String := "... (truncated)"

/-- Row counts reported by analyze_context_size (the byte-size and
oldest/newest fields of the returned dict are abstracted away; the
returned empty dict for a missing store is modelled as none). -/
structure Sizes where
  conversations : Nat
  code_contexts : Nat
deriving Repr, DecidableEq

/-- ContextOptimizer.analyze_context_size: read-only row counts, empty
result when the store file does not exist. -/
def analyze_context_size : Option Store → Option Sizes
  | none => none
  | some s =>
    some { conversations := s.conversations.length
           code_contexts := s.code_contexts.length }

/-- The backup file name f"context_backup_{timestamp}.db". -/
def backupName (stamp : String) : String :=
  String.mk ("context_backup_".data ++ stamp.data ++ ".db".data)

/-- ContextOptimizer.backup_context: copy the store file into the backup
directory under a timestamp-derived name. shutil.copy2 replaces an
existing file of the same name; a failing copy is caught and None is
returned with the backup directory unchanged. -/
def backup_context (env : Env) (store : Option Store)
    (backups : List (String × Store)) :
    Option String × List (String × Store) :=
  match store with
  | none => (none, backups)
  | some s =>
    if env.copyOk then
      let name := backupName env.stamp
      (some name, (name, s) :: backups.filter (fun b => decide (b.1 ≠ name)))
    else (none, backups)

/-- Sort order of the subquery ORDER BY timestamp DESC: row a precedes
row b when a is not strictly older; ties keep stored row order, which is
the deterministic order SQLite produces for a fixed store file. -/
def convDesc (a b : ConversationRow) : Prop :=
  ¬ strLt a.timestamp b.timestamp = true

instance : DecidableRel convDesc := fun _ _ => instDecidableNot

/-- The session_ids selected by
SELECT session_id FROM conversation_context ORDER BY timestamp DESC LIMIT 10. -/
def keepStepSessionIds (rows : List ConversationRow) : List String :=
  ((List.insertionSort convDesc rows).take max_conversations).map
    (fun r => r.session_id)

/-- The keep-N-most-recent DELETE: rows whose session_id is not among
the selected ones are removed. -/
def keepStepRetained (rows : List ConversationRow) : List ConversationRow :=
  rows.filter (fun r => decide (r.session_id ∈ keepStepSessionIds rows))

/-- Truncation of one summary value: summary[:max_summary_length] plus
the marker when len(summary) exceeds the cap (an empty summary is falsy
in the source and skipped, which coincides with the cap test). -/
def truncateSummary (s : String) : String :=
  if max_summary_length < strLen s then
    String.mk (s.data.take max_summary_length ++ truncation_marker.data)
  else s

/-- Conversation rows remaining after the two DELETE statements of
optimize_conversations: the age cutoff, then the keep-N step applied to
what the age cutoff left. -/
def convAfterDeletes (env : Env) (rows : List ConversationRow) :
    List ConversationRow :=
  keepStepRetained (rows.filter (fun r => !strLt r.timestamp env.cutoff))

/-- Effect of the truncation UPDATE on one row. -/
def truncRow (r : ConversationRow) : ConversationRow :=
  { r with context_summary := truncateSummary r.context_summary }

/-- ContextOptimizer.optimize_conversations: age delete, keep-N delete,
then the per-row summary truncation UPDATE (keyed by session_id, which
the spec declares unique); returns the new store and
initial_count - final_count. -/
def optimize_conversations (env : Env) (store : Option Store) :
    Option Store × Nat :=
  match store with
  | none => (none, 0)
  | some s =>
    let finalRows := (convAfterDeletes env s.conversations).map truncRow
    (some { s with conversations := finalRows },
     s.conversations.length - finalRows.length)

/-- Sort order of the subquery ORDER BY complexity_score DESC, ties in
stored row order. -/
def ctxDesc (a b : CodeContextRow) : Prop :=
  ¬ a.complexity_score < b.complexity_score

instance : DecidableRel ctxDesc := fun _ _ => instDecidableNot

/-- The file_paths selected by
SELECT file_path FROM code_context ORDER BY complexity_score DESC LIMIT 50. -/
def topStepFilePaths (rows : List CodeContextRow) : List String :=
  ((List.insertionSort ctxDesc rows).take max_file_contexts).map
    (fun r => r.file_path)

/-- Code-context rows remaining after the missing-file deletes and the
age DELETE of optimize_code_contexts. -/
def ctxAfterAge (env : Env) (fs : List String) (rows : List CodeContextRow) :
    List CodeContextRow :=
  (rows.filter (fun r => decide (r.file_path ∈ fs))).filter
    (fun r => !strLt r.last_modified env.cutoff)

/-- Code-context rows remaining after all three delete steps: the top-K
DELETE only executes when the remaining count exceeds max_file_contexts. -/
def ctxAfterDeletes (env : Env) (fs : List String)
    (rows : List CodeContextRow) : List CodeContextRow :=
  let afterAge := ctxAfterAge env fs rows
  if max_file_contexts < afterAge.length then
    afterAge.filter (fun r => decide (r.file_path ∈ topStepFilePaths afterAge))
  else afterAge

/-- The removed_missing counter of optimize_code_contexts: it is
incremented once per fetched row whose file_path does not resolve, and
it is only printed by the source, never returned. -/
def code_contexts_removed_missing (fs : List String) (store : Option Store) :
    Nat :=
  match store with
  | none => 0
  | some s =>
    (s.code_contexts.filter (fun r => !decide (r.file_path ∈ fs))).length

/-- ContextOptimizer.optimize_code_contexts: missing-file deletes, age
delete, conditional top-K delete; returns the new store and
initial_count - final_count (a single integer). -/
def optimize_code_contexts (env : Env) (fs : List String)
    (store : Option Store) : Option Store × Nat :=
  match store with
  | none => (none, 0)
  | some s =>
    let finalRows := ctxAfterDeletes env fs s.code_contexts
    (some { s with code_contexts := finalRows },
     s.code_contexts.length - finalRows.length)

/-- ContextOptimizer.vacuum_database: logically a no-op on the rows;
returns whether it ran, which requires the store to exist. -/
def vacuum_database (store : Option Store) : Bool := store.isSome

/-- The five glob patterns of clean_temp_files, split into the literal
text before and after the single star. -/
def tempPatterns : List (String × String) :=
  [("ai_context_", ".json"),
   ("session_handoff_", ".json"),
   ("temp_", ".log"),
   (".ai_session_", ""),
   (".ai_changes_", ".log")]

/-- Whether a file name matches prefix-star-suffix: the star of fnmatch
also matches the empty string. -/
def globMatch (pq : String × String) (name : String) : Bool :=
  decide (name.data.take pq.1.data.length = pq.1.data) &&
  decide (pq.1.data.length + pq.2.data.length ≤ name.data.length) &&
  decide (name.data.drop (name.data.length - pq.2.data.length) = pq.2.data)

/-- Whether a name matches one of the temp-file patterns. -/
def isTempArtifact (name : String) : Bool :=
  tempPatterns.any (fun pq => globMatch pq name)

/-- Path.glob with a pattern containing no separator only matches
entries directly in the project root. -/
def isRootLevel (p : String) : Bool := !(p.data.contains '/')

/-- Whether the temp cleaner deletes this path. Note that
clean_temp_files does not consult the store at all. -/
def cleanedByTempGlob (p : String) : Bool := isRootLevel p && isTempArtifact p

/-- ContextOptimizer.clean_temp_files: unlink every root-level match of
the patterns and count them (per-file unlink failures are caught in the
source; the model takes the deletions to succeed). -/
def clean_temp_files (fs : List String) : List String × Nat :=
  (fs.filter (fun p => !cleanedByTempGlob p),
   (fs.filter (fun p => cleanedByTempGlob p)).length)

/-- The counters of the results dict of run_full_optimization
(size_reduction_mb, a float over file sizes, is abstracted away). -/
structure RunResults where
  conversations_removed : Nat
  code_contexts_removed : Nat
  temp_files_removed : Nat
deriving Repr, DecidableEq

/-- ContextOptimizer.run_full_optimization: analyze (read-only), backup,
optimize conversations, optimize code contexts, clean temp files,
vacuum, analyze again; returns the new world, the counters and the
backup path. -/
def run_full_optimization (env : Env) (w : World) :
    World × RunResults × Option String :=
  let backupOut := backup_context env w.store w.backups
  let convOut := optimize_conversations env w.store
  let ctxOut := optimize_code_contexts env w.fs convOut.1
  let cleanOut := clean_temp_files w.fs
  ({ store := ctxOut.1, fs := cleanOut.1, backups := backupOut.2 },
   { conversations_removed := convOut.2
     code_contexts_removed := ctxOut.2
     temp_files_removed := cleanOut.2 },
   backupOut.1)

/-- Observable operations on the store during one run: the copy made by
backup_context, and each DELETE or UPDATE statement executed against the
store (a DELETE statement executes even when it removes no row). -/
inductive Event where
  | backup : Store → Event
  | mutate : Event
deriving Repr, DecidableEq

/-- Whether an event is a DELETE or UPDATE on the store. -/
def Event.isMutate : Event → Bool
  | .mutate => true
  | _ => false

/-- The DELETE and UPDATE statements run_full_optimization executes on
an existing store, in program order: the two conversation DELETE
statements, one UPDATE per long remaining summary, one DELETE per
fetched code-context row with a missing file, the code-context age
DELETE, and the top-K DELETE when the remaining count exceeds the
threshold. -/
def mutationEvents (env : Env) (fs : List String) (s : Store) : List Event :=
  [Event.mutate, Event.mutate]
  ++ ((convAfterDeletes env s.conversations).filter
      (fun r => decide (max_summary_length < strLen r.context_summary))).map
      (fun _ => Event.mutate)
  ++ (s.code_contexts.filter
      (fun r => !decide (r.file_path ∈ fs))).map (fun _ => Event.mutate)
  ++ [Event.mutate]
  ++ (if max_file_contexts < (ctxAfterAge env fs s.code_contexts).length
      then [Event.mutate] else [])

/-- The sequence of store operations performed by run_full_optimization:
nothing when the store is missing; otherwise the backup copy when it
succeeds, followed by the DELETE and UPDATE statements. -/
def runTrace (env : Env) (w : World) : List Event :=
  match w.store with
  | none => []
  | some s =>
    (if env.copyOk then [Event.backup s] else []) ++ mutationEvents env w.fs s

/-- Outcome of a CLI invocation: the usage text, a handled command, or
the unknown-command error message. -/
inductive CliOutcome where
  | usage : CliOutcome
  | ran : String → CliOutcome
  | unknownCommand : CliOutcome
deriving Repr, DecidableEq

/-- The four commands dispatched by main. -/
def knownCommands : List String := ["analyze", "optimize", "backup", "clean"]

/-- The main CLI entry point: dispatch on sys.argv[1]. The source never
calls sys.exit, so every path falls off the end of main and the process
exit status is 0, also for the unknown-command branch. -/
def main (env : Env) (w : World) (argv : List String) :
    World × CliOutcome × Nat :=
  match argv with
  | [] => (w, CliOutcome.usage, 0)
  | [_] => (w, CliOutcome.usage, 0)
  | _ :: command :: _ =>
    if command = "analyze" then (w, CliOutcome.ran command, 0)
    else if command = "optimize" then
      ((run_full_optimization env w).1, CliOutcome.ran command, 0)
    else if command = "backup" then
      ({ w with backups := (backup_context env w.store w.backups).2 },
       CliOutcome.ran command, 0)
    else if command = "clean" then
      ({ w with fs := (clean_temp_files w.fs).1 }, CliOutcome.ran command, 0)
    else (w, CliOutcome.unknownCommand, 0)

/-- Fixture environment: cutoff at the start of 2026, a fixed backup
stamp, successful copy. -/
def envA : Env :=
  { cutoff := "2026-01-01T00:00:00", stamp := "20260131_120000", copyOk := true }

/-- Fixture environment identical to envA except that the shutil.copy2
call fails. -/
def envNoCopy : Env :=
  { cutoff := "2026-01-01T00:00:00", stamp := "20260131_120000", copyOk := false }

/-- Fixture environment one second after envA. -/
def envB : Env :=
  { cutoff := "2026-01-01T00:00:00", stamp := "20260131_120001", copyOk := true }

/-- Store whose only code-context row points at a root-level file that
the temp cleaner matches. -/
def storeTemp : Store :=
  { conversations := []
    code_contexts :=
      [{ file_path := "temp_x.log", last_modified := "2026-01-15T00:00:00",
         complexity_score := 1 }] }

/-- World around storeTemp: the referenced file exists. -/
def worldTemp : World :=
  { store := some storeTemp, fs := ["temp_x.log"], backups := [] }

/-- Store with one conversation older than the envA cutoff. -/
def storeOldConv : Store :=
  { conversations :=
      [{ session_id := "s1", timestamp := "2025-11-01T00:00:00",
         context_summary := "hello" }]
    code_contexts := [] }

/-- World around storeOldConv. -/
def worldOldConv : World :=
  { store := some storeOldConv, fs := [], backups := [] }

/-- Store whose only code-context row references a file that is not on
disk; the row is recent. -/
def storeMissingFile : Store :=
  { conversations := []
    code_contexts :=
      [{ file_path := "gone.py", last_modified := "2026-01-15T00:00:00",
         complexity_score := 1 }] }

/-- Store whose only code-context row references an existing file but is
older than the envA cutoff. -/
def storeOldCtx : Store :=
  { conversations := []
    code_contexts :=
      [{ file_path := "present.py", last_modified := "2025-01-01T00:00:00",
         complexity_score := 1 }] }

/-- Filesystem for the code-context pruner fixtures. -/
def fsPresent : List String := ["present.py"]

/-- Nonempty store for the backup fixtures. -/
def storeBak1 : Store :=
  { conversations :=
      [{ session_id := "a", timestamp := "2026-01-20T00:00:00",
         context_summary := "x" }]
    code_contexts := [] }

/-- The empty store, as the state of the store after a mutation between
two backup calls. -/
def storeBak2 : Store := { conversations := [], code_contexts := [] }

/-- World with no store file and one matching temp file. -/
def worldNoStore : World :=
  { store := none, fs := ["temp_x.log", "unrelated.txt"], backups := [] }

/-- Well-formed fixture world for the witnesses: one recent
conversation, one recent code-context row whose file exists. -/
def storeWit : Store :=
  { conversations :=
      [{ session_id := "s1", timestamp := "2026-01-15T00:00:00",
         context_summary := "hello" },
       { session_id := "s2", timestamp := "2026-01-15T00:00:00",
         context_summary := "world" }]
    code_contexts :=
      [{ file_path := "keep.py", last_modified := "2026-01-10T00:00:00",
         complexity_score := 2 }] }

/-- World around storeWit. -/
def worldWit : World :=
  { store := some storeWit, fs := ["keep.py"], backups := [] }

/-- Two conversation rows with equal timestamps, for the tie-break
determinism fixture. -/
def rowsTied : List ConversationRow :=
  [{ session_id := "a", timestamp := "2026-01-15T00:00:00",
     context_summary := "x" },
   { session_id := "b", timestamp := "2026-01-15T00:00:00",
     context_summary := "y" }]

/-! ### Helper lemmas about the pruning steps -/

lemma length_keepStepSessionIds_le (rows : List ConversationRow) :
    (keepStepSessionIds rows).length ≤ max_conversations := by
  unfold keepStepSessionIds
  rw [List.length_map]
  simp [List.length_take]

lemma keepStepRetained_sublist (rows : List ConversationRow) :
    List.Sublist (keepStepRetained rows) rows :=
  List.filter_sublist rows

lemma keepStepRetained_length_le (rows : List ConversationRow)
    (h : (rows.map (fun r => r.session_id)).Nodup) :
    (keepStepRetained rows).length ≤ max_conversations := by
  have hsub := keepStepRetained_sublist rows
  have hnd : ((keepStepRetained rows).map (fun r => r.session_id)).Nodup :=
    h.sublist (hsub.map _)
  have hss : ((keepStepRetained rows).map (fun r => r.session_id)) ⊆
      keepStepSessionIds rows := by
    intro x hx
    rcases List.mem_map.mp hx with ⟨r, hr, rfl⟩
    exact of_decide_eq_true (List.mem_filter.mp hr).2
  calc (keepStepRetained rows).length
      = ((keepStepRetained rows).map (fun r => r.session_id)).length :=
        (List.length_map _ _).symm
    _ ≤ (keepStepSessionIds rows).length := (hnd.subperm hss).length_le
    _ ≤ max_conversations := length_keepStepSessionIds_le rows

lemma keepStepRetained_of_length_le (rows : List ConversationRow)
    (h : rows.length ≤ max_conversations) : keepStepRetained rows = rows := by
  unfold keepStepRetained
  apply List.filter_eq_self.mpr
  intro r hr
  apply decide_eq_true
  unfold keepStepSessionIds
  have hperm := List.perm_insertionSort convDesc rows
  rw [List.take_of_length_le (by rw [hperm.length_eq]; exact h)]
  exact List.mem_map.mpr ⟨r, hperm.mem_iff.mpr hr, rfl⟩

lemma convAfterDeletes_sublist (env : Env) (rows : List ConversationRow) :
    List.Sublist (convAfterDeletes env rows) rows :=
  (keepStepRetained_sublist _).trans (List.filter_sublist rows)

lemma convAfterDeletes_mem (env : Env) (rows : List ConversationRow)
    (r : ConversationRow) (h : r ∈ convAfterDeletes env rows) :
    r ∈ rows ∧ strLt r.timestamp env.cutoff = false := by
  have h1 : r ∈ rows.filter (fun x => !strLt x.timestamp env.cutoff) :=
    (keepStepRetained_sublist _).subset h
  have h2 := List.mem_filter.mp h1
  exact ⟨h2.1, by simpa using h2.2⟩

lemma convAfterDeletes_length_le (env : Env) (rows : List ConversationRow)
    (h : (rows.map (fun r => r.session_id)).Nodup) :
    (convAfterDeletes env rows).length ≤ max_conversations :=
  keepStepRetained_length_le _ (h.sublist ((List.filter_sublist rows).map _))

lemma length_topStepFilePaths_le (rows : List CodeContextRow) :
    (topStepFilePaths rows).length ≤ max_file_contexts := by
  unfold topStepFilePaths
  rw [List.length_map]
  simp [List.length_take]

lemma topFilter_length_le (rows : List CodeContextRow)
    (h : (rows.map (fun r => r.file_path)).Nodup) :
    (rows.filter
      (fun r => decide (r.file_path ∈ topStepFilePaths rows))).length ≤
      max_file_contexts := by
  set kept := rows.filter
    (fun r => decide (r.file_path ∈ topStepFilePaths rows)) with hkept
  have hsub : List.Sublist kept rows := List.filter_sublist rows
  have hnd : (kept.map (fun r => r.file_path)).Nodup := h.sublist (hsub.map _)
  have hss : (kept.map (fun r => r.file_path)) ⊆ topStepFilePaths rows := by
    intro x hx
    rcases List.mem_map.mp hx with ⟨r, hr, rfl⟩
    exact of_decide_eq_true (List.mem_filter.mp hr).2
  calc kept.length = (kept.map (fun r => r.file_path)).length :=
        (List.length_map _ _).symm
    _ ≤ (topStepFilePaths rows).length := (hnd.subperm hss).length_le
    _ ≤ max_file_contexts := length_topStepFilePaths_le rows

lemma ctxAfterAge_sublist (env : Env) (fs : List String)
    (rows : List CodeContextRow) :
    List.Sublist (ctxAfterAge env fs rows) rows :=
  (List.filter_sublist _).trans (List.filter_sublist rows)

lemma ctxAfterAge_mem (env : Env) (fs : List String)
    (rows : List CodeContextRow) (r : CodeContextRow)
    (h : r ∈ ctxAfterAge env fs rows) :
    r ∈ rows ∧ r.file_path ∈ fs ∧ strLt r.last_modified env.cutoff = false := by
  have h2 := List.mem_filter.mp h
  have h3 := List.mem_filter.mp h2.1
  exact ⟨h3.1, of_decide_eq_true h3.2, by simpa using h2.2⟩

lemma ctxAfterDeletes_subset_afterAge (env : Env) (fs : List String)
    (rows : List CodeContextRow) :
    List.Sublist (ctxAfterDeletes env fs rows) (ctxAfterAge env fs rows) := by
  simp only [ctxAfterDeletes]
  split
  · exact List.filter_sublist _
  · exact List.Sublist.refl _

lemma ctxAfterDeletes_sublist (env : Env) (fs : List String)
    (rows : List CodeContextRow) :
    List.Sublist (ctxAfterDeletes env fs rows) rows :=
  (ctxAfterDeletes_subset_afterAge env fs rows).trans
    (ctxAfterAge_sublist env fs rows)

lemma ctxAfterDeletes_mem (env : Env) (fs : List String)
    (rows : List CodeContextRow) (r : CodeContextRow)
    (h : r ∈ ctxAfterDeletes env fs rows) :
    r ∈ rows ∧ r.file_path ∈ fs ∧ strLt r.last_modified env.cutoff = false :=
  ctxAfterAge_mem env fs rows r
    ((ctxAfterDeletes_subset_afterAge env fs rows).subset h)

lemma ctxAfterDeletes_length_le (env : Env) (fs : List String)
    (rows : List CodeContextRow)
    (h : (rows.map (fun r => r.file_path)).Nodup) :
    (ctxAfterDeletes env fs rows).length ≤ max_file_contexts := by
  simp only [ctxAfterDeletes]
  split
  case isTrue hgt =>
    exact topFilter_length_le _
      (h.sublist ((ctxAfterAge_sublist env fs rows).map _))
  case isFalse hle =>
    omega

lemma strLen_mk (l : List Char) : strLen (String.mk l) = l.length := rfl

lemma strLen_truncateSummary_le (s : String) :
    strLen (truncateSummary s) ≤ max_summary_length + strLen truncation_marker := by
  unfold truncateSummary
  split
  case isTrue hgt =>
    rw [strLen_mk, List.length_append, List.length_take]
    have h2 : strLen truncation_marker = truncation_marker.data.length := rfl
    omega
  case isFalse hle =>
    omega

lemma truncateSummary_of_lt (s : String)
    (h : max_summary_length < strLen s) :
    truncateSummary s =
      String.mk (s.data.take max_summary_length ++ truncation_marker.data) := by
  unfold truncateSummary
  rw [if_pos h]

lemma truncateSummary_idem (s : String) :
    truncateSummary (truncateSummary s) = truncateSummary s := by
  by_cases h : max_summary_length < strLen s
  · rw [truncateSummary_of_lt s h]
    have hlen : strLen (String.mk
        (s.data.take max_summary_length ++ truncation_marker.data)) =
        max_summary_length + strLen truncation_marker := by
      rw [strLen_mk, List.length_append, List.length_take]
      have h2 : strLen truncation_marker = truncation_marker.data.length := rfl
      have h3 : strLen s = s.data.length := rfl
      omega
    have hgt : max_summary_length < strLen (String.mk
        (s.data.take max_summary_length ++ truncation_marker.data)) := by
      rw [hlen]
      have h4 : 0 < strLen truncation_marker := by decide
      omega
    rw [truncateSummary_of_lt _ hgt]
    have htake : (s.data.take max_summary_length ++
        truncation_marker.data).take max_summary_length =
        s.data.take max_summary_length := by
      have hl : (s.data.take max_summary_length).length = max_summary_length := by
        rw [List.length_take]
        have h3 : strLen s = s.data.length := rfl
        omega
      rw [show ((s.data.take max_summary_length ++
          truncation_marker.data).take max_summary_length) =
          ((s.data.take max_summary_length ++
          truncation_marker.data).take
            (s.data.take max_summary_length).length) by rw [hl]]
      exact List.take_left _ _
    rw [show (String.mk (s.data.take max_summary_length ++
        truncation_marker.data)).data =
        s.data.take max_summary_length ++ truncation_marker.data from rfl]
    rw [htake]
  · have hid : truncateSummary s = s := by rw [truncateSummary, if_neg h]
    rw [hid, hid]

lemma truncRow_session_id (r : ConversationRow) :
    (truncRow r).session_id = r.session_id := rfl

lemma truncRow_timestamp (r : ConversationRow) :
    (truncRow r).timestamp = r.timestamp := rfl

lemma truncRow_idem (r : ConversationRow) :
    truncRow (truncRow r) = truncRow r := by
  cases r
  simp [truncRow, truncateSummary_idem]

lemma backupName_injective {a b : String} (h : backupName a = backupName b) :
    a = b := by
  unfold backupName at h
  have h2 : "context_backup_".data ++ a.data ++ ".db".data =
      "context_backup_".data ++ b.data ++ ".db".data := by
    injection h
  have h4 : "context_backup_".data ++ (a.data ++ ".db".data) =
      "context_backup_".data ++ (b.data ++ ".db".data) := by
    simpa [List.append_assoc] using h2
  have h3 : a.data = b.data :=
    List.append_cancel_right (List.append_cancel_left h4)
  exact congrArg String.mk h3

lemma length_filter_split (l : List CodeContextRow) (p : CodeContextRow → Bool) :
    (l.filter p).length + (l.filter (fun a => !p a)).length = l.length := by
  induction l with
  | nil => rfl
  | cons a t ih =>
    cases hpa : p a <;> simp [List.filter_cons, hpa, Nat.succ_eq_add_one] <;> omega

lemma conv_second_pass (env : Env) (rows : List ConversationRow)
    (h : (rows.map (fun r => r.session_id)).Nodup) :
    convAfterDeletes env ((convAfterDeletes env rows).map truncRow) =
      (convAfterDeletes env rows).map truncRow ∧
    ((convAfterDeletes env rows).map truncRow).map truncRow =
      (convAfterDeletes env rows).map truncRow := by
  constructor
  · set c0 := convAfterDeletes env rows with hc0
    have hage : (c0.map truncRow).filter
        (fun r => !strLt r.timestamp env.cutoff) = c0.map truncRow := by
      apply List.filter_eq_self.mpr
      intro r hr
      rcases List.mem_map.mp hr with ⟨r0, hr0, rfl⟩
      have hold := (convAfterDeletes_mem env rows r0 (hc0 ▸ hr0)).2
      simp [truncRow_timestamp, hold]
    have hlen : (c0.map truncRow).length ≤ max_conversations := by
      rw [List.length_map, hc0]
      exact convAfterDeletes_length_le env rows h
    show convAfterDeletes env (c0.map truncRow) = c0.map truncRow
    unfold convAfterDeletes
    rw [hage]
    exact keepStepRetained_of_length_le _ hlen
  · rw [List.map_map]
    have hcomp : truncRow ∘ truncRow = truncRow := funext truncRow_idem
    rw [hcomp]

lemma ctx_second_pass (env : Env) (fs fs2 : List String)
    (rows : List CodeContextRow)
    (h : (rows.map (fun r => r.file_path)).Nodup)
    (hfs : ∀ r ∈ ctxAfterDeletes env fs rows, r.file_path ∈ fs2) :
    ctxAfterDeletes env fs2 (ctxAfterDeletes env fs rows) =
      ctxAfterDeletes env fs rows := by
  set k1 := ctxAfterDeletes env fs rows with hk1
  have hmem : ∀ r ∈ k1,
      r.file_path ∈ fs2 ∧ strLt r.last_modified env.cutoff = false :=
    fun r hr =>
      ⟨hfs r (hk1 ▸ hr), (ctxAfterDeletes_mem env fs rows r (hk1 ▸ hr)).2.2⟩
  have hage : ctxAfterAge env fs2 k1 = k1 := by
    unfold ctxAfterAge
    rw [List.filter_eq_self.mpr
      (fun r hr => decide_eq_true (hmem r hr).1)]
    exact List.filter_eq_self.mpr (fun r hr => by simp [(hmem r hr).2])
  have hlen : k1.length ≤ max_file_contexts := by
    rw [hk1]
    exact ctxAfterDeletes_length_le env fs rows h
  show ctxAfterDeletes env fs2 k1 = k1
  simp only [ctxAfterDeletes]
  rw [hage, if_neg (by omega)]

/-! ### Claim C1: a backup precedes every store mutation -/

/-- C1 counterexample: on an existing store, when the copy made by
backup_context fails (the source catches the failure, returns None and
run_full_optimization continues), DELETE statements still execute while
no backup event occurs at all, so the claim that a backup snapshot
exists before every delete or update is false. -/
theorem C1_counterexample :
    worldOldConv.store ≠ none ∧
    runTrace envNoCopy worldOldConv =
      [Event.mutate, Event.mutate, Event.mutate] :=
  ⟨by decide, by decide⟩

/-- C1 (amended): on an existing store, in every run of
run_full_optimization in which the backup copy succeeds, the event trace
starts with the backup of the pre-run store, every DELETE or UPDATE on
the store is preceded by that backup event, and the snapshot is the
pre-run store itself, so its row counts are exactly the pre-run counts
reported by analyze_context_size. -/
theorem C1_backup_precedes_mutation (env : Env) (w : World) (s : Store)
    (hs : w.store = some s) (hc : env.copyOk = true) :
    runTrace env w = Event.backup s :: mutationEvents env w.fs s ∧
    (∀ (i : Nat) (e : Event), (runTrace env w)[i]? = some e →
      e.isMutate = true →
      ∃ j, j < i ∧ (runTrace env w)[j]? = some (Event.backup s)) ∧
    analyze_context_size w.store =
      some { conversations := s.conversations.length
             code_contexts := s.code_contexts.length } := by
  have htr : runTrace env w = Event.backup s :: mutationEvents env w.fs s := by
    simp [runTrace, hs, hc]
  refine ⟨htr, ?_, by rw [hs]; rfl⟩
  intro i e hi hm
  refine ⟨0, ?_, by rw [htr]; rfl⟩
  cases i with
  | zero =>
    rw [htr] at hi
    have he : e = Event.backup s := by
      have : some (Event.backup s) = some e := by
        rw [← hi]
        rfl
      exact (Option.some.injEq _ _ ▸ this).symm
    rw [he] at hm
    simp [Event.isMutate] at hm
  | succ n => omega

/-- C1 witness: the amended theorem applied to the well-formed fixture
world. -/
theorem C1_backup_precedes_mutation_witness :
    worldWit.store = some storeWit ∧ envA.copyOk = true ∧
    (runTrace envA worldWit =
      Event.backup storeWit :: mutationEvents envA worldWit.fs storeWit ∧
    (∀ (i : Nat) (e : Event), (runTrace envA worldWit)[i]? = some e →
      e.isMutate = true →
      ∃ j, j < i ∧
        (runTrace envA worldWit)[j]? = some (Event.backup storeWit)) ∧
    analyze_context_size worldWit.store =
      some { conversations := storeWit.conversations.length
             code_contexts := storeWit.code_contexts.length }) :=
  ⟨rfl, rfl, C1_backup_precedes_mutation envA worldWit storeWit rfl rfl⟩

/-! ### Claim C2: post-pruning invariants -/

/-- C2: after the two pruning steps, on a store whose session_ids and
file_paths are key-like (no duplicates, as the data model declares), the
conversation count is at most max_conversations, no remaining
conversation is older than the cutoff, the code-context count is at most
max_file_contexts, and every remaining code-context row has an existing
file and is not older than the cutoff. -/
theorem C2_post_pruning_invariants (env : Env) (fs : List String) (s : Store)
    (hconv : (s.conversations.map (fun r => r.session_id)).Nodup)
    (hctx : (s.code_contexts.map (fun r => r.file_path)).Nodup) :
    ∃ s2 : Store,
      (optimize_code_contexts env fs
        (optimize_conversations env (some s)).1).1 = some s2 ∧
      s2.conversations.length ≤ max_conversations ∧
      (∀ r ∈ s2.conversations, strLt r.timestamp env.cutoff = false) ∧
      s2.code_contexts.length ≤ max_file_contexts ∧
      (∀ r ∈ s2.code_contexts,
        r.file_path ∈ fs ∧ strLt r.last_modified env.cutoff = false) := by
  refine ⟨_, rfl, ?_, ?_, ?_, ?_⟩
  · show ((convAfterDeletes env s.conversations).map truncRow).length ≤
      max_conversations
    rw [List.length_map]
    exact convAfterDeletes_length_le env s.conversations hconv
  · show ∀ r ∈ (convAfterDeletes env s.conversations).map truncRow,
      strLt r.timestamp env.cutoff = false
    intro r hr
    rcases List.mem_map.mp hr with ⟨r0, hr0, rfl⟩
    rw [truncRow_timestamp]
    exact (convAfterDeletes_mem env s.conversations r0 hr0).2
  · show (ctxAfterDeletes env fs s.code_contexts).length ≤ max_file_contexts
    exact ctxAfterDeletes_length_le env fs s.code_contexts hctx
  · show ∀ r ∈ ctxAfterDeletes env fs s.code_contexts,
      r.file_path ∈ fs ∧ strLt r.last_modified env.cutoff = false
    intro r hr
    exact ⟨(ctxAfterDeletes_mem env fs s.code_contexts r hr).2.1,
      (ctxAfterDeletes_mem env fs s.code_contexts r hr).2.2⟩

/-- C2 witness: the invariants instantiated at the fixture store. -/
theorem C2_post_pruning_invariants_witness :
    (storeWit.conversations.map (fun r => r.session_id)).Nodup ∧
    (storeWit.code_contexts.map (fun r => r.file_path)).Nodup ∧
    (∃ s2 : Store,
      (optimize_code_contexts envA ["keep.py"]
        (optimize_conversations envA (some storeWit)).1).1 = some s2 ∧
      s2.conversations.length ≤ max_conversations ∧
      (∀ r ∈ s2.conversations, strLt r.timestamp envA.cutoff = false) ∧
      s2.code_contexts.length ≤ max_file_contexts ∧
      (∀ r ∈ s2.code_contexts,
        r.file_path ∈ ["keep.py"] ∧
          strLt r.last_modified envA.cutoff = false)) :=
  ⟨by decide, by decide,
    C2_post_pruning_invariants envA ["keep.py"] storeWit (by decide) (by decide)⟩

/-! ### Claim C3: running the full optimize sequence twice -/

lemma run_full_eq (env : Env) (w : World) (s : Store) (hs : w.store = some s) :
    run_full_optimization env w =
      ({ store := some
           { conversations := (convAfterDeletes env s.conversations).map truncRow
             code_contexts := ctxAfterDeletes env w.fs s.code_contexts }
         fs := (clean_temp_files w.fs).1
         backups := (backup_context env (some s) w.backups).2 },
       { conversations_removed :=
           s.conversations.length -
             ((convAfterDeletes env s.conversations).map truncRow).length
         code_contexts_removed :=
           s.code_contexts.length -
             (ctxAfterDeletes env w.fs s.code_contexts).length
         temp_files_removed := (clean_temp_files w.fs).2 },
       (backup_context env (some s) w.backups).1) := by
  simp only [run_full_optimization, optimize_conversations,
    optimize_code_contexts, hs]

/-- C3 counterexample: on a store whose only code-context row references
a root-level file matching the temp-cleaner patterns, the first run
keeps the row but deletes the file, so the second run removes the row:
the second run removes one code-context row and the store changes. -/
theorem C3_counterexample :
    (run_full_optimization envA
      (run_full_optimization envA worldTemp).1).2.1.code_contexts_removed = 1 ∧
    (run_full_optimization envA
      (run_full_optimization envA worldTemp).1).1.store ≠
      (run_full_optimization envA worldTemp).1.store :=
  ⟨by decide, by decide⟩

/-- C3 (amended): with key-like session_ids and file_paths, and provided
no code-context row references a file the temp cleaner deletes, a second
run of the full optimization with the same clock removes zero rows and
leaves the store unchanged. -/
theorem C3_second_run_noop (env : Env) (w : World) (s : Store)
    (hs : w.store = some s)
    (hconv : (s.conversations.map (fun r => r.session_id)).Nodup)
    (hctx : (s.code_contexts.map (fun r => r.file_path)).Nodup)
    (htemp : ∀ r ∈ s.code_contexts, cleanedByTempGlob r.file_path = false) :
    (run_full_optimization env (run_full_optimization env w).1).1.store =
      (run_full_optimization env w).1.store ∧
    (run_full_optimization env
      (run_full_optimization env w).1).2.1.conversations_removed = 0 ∧
    (run_full_optimization env
      (run_full_optimization env w).1).2.1.code_contexts_removed = 0 := by
  have hconv1 : convAfterDeletes env
      ((convAfterDeletes env s.conversations).map truncRow) =
      (convAfterDeletes env s.conversations).map truncRow :=
    (conv_second_pass env s.conversations hconv).1
  have hconv2 :
      ((convAfterDeletes env s.conversations).map truncRow).map truncRow =
      (convAfterDeletes env s.conversations).map truncRow :=
    (conv_second_pass env s.conversations hconv).2
  have hfs2 : ∀ r ∈ ctxAfterDeletes env w.fs s.code_contexts,
      r.file_path ∈ (clean_temp_files w.fs).1 := by
    intro r hr
    have hmem := ctxAfterDeletes_mem env w.fs s.code_contexts r hr
    have hclean := htemp r hmem.1
    show r.file_path ∈ w.fs.filter (fun p => !cleanedByTempGlob p)
    exact List.mem_filter.mpr ⟨hmem.2.1, by simp [hclean]⟩
  have hctx1 : ctxAfterDeletes env (clean_temp_files w.fs).1
      (ctxAfterDeletes env w.fs s.code_contexts) =
      ctxAfterDeletes env w.fs s.code_contexts :=
    ctx_second_pass env w.fs (clean_temp_files w.fs).1 s.code_contexts hctx hfs2
  have h1 := run_full_eq env w s hs
  have hs1 : (run_full_optimization env w).1.store =
      some { conversations := (convAfterDeletes env s.conversations).map truncRow
             code_contexts := ctxAfterDeletes env w.fs s.code_contexts } := by
    rw [h1]
  have hfs1 : (run_full_optimization env w).1.fs = (clean_temp_files w.fs).1 := by
    rw [h1]
  have h2 := run_full_eq env (run_full_optimization env w).1 _ hs1
  refine ⟨?_, ?_, ?_⟩
  · rw [h2, hs1]
    dsimp only
    rw [hfs1, hconv1, hconv2, hctx1]
  · rw [h2]
    dsimp only
    rw [hconv1, hconv2]
    exact Nat.sub_self _
  · rw [h2]
    dsimp only
    rw [hfs1, hctx1]
    exact Nat.sub_self _

/-- C3 witness: the amended idempotence applied to the fixture world. -/
theorem C3_second_run_noop_witness :
    worldWit.store = some storeWit ∧
    (storeWit.conversations.map (fun r => r.session_id)).Nodup ∧
    (storeWit.code_contexts.map (fun r => r.file_path)).Nodup ∧
    (∀ r ∈ storeWit.code_contexts, cleanedByTempGlob r.file_path = false) ∧
    ((run_full_optimization envA
        (run_full_optimization envA worldWit).1).1.store =
      (run_full_optimization envA worldWit).1.store ∧
     (run_full_optimization envA
       (run_full_optimization envA worldWit).1).2.1.conversations_removed = 0 ∧
     (run_full_optimization envA
       (run_full_optimization envA worldWit).1).2.1.code_contexts_removed = 0) :=
  ⟨rfl, by decide, by decide, by decide,
    C3_second_run_noop envA worldWit storeWit rfl (by decide) (by decide)
      (by decide)⟩

/-! ### Claim C4: the truncation law -/

/-- C4: after conversation optimization every remaining summary has
length at most max_summary_length plus the marker length; every
remaining row is the truncation image of a pre-run row, an over-cap
summary being replaced by its first max_summary_length characters plus
the marker; and truncation is idempotent on summary values. -/
theorem C4_truncation_law (env : Env) (s : Store) :
    ∃ s1, (optimize_conversations env (some s)).1 = some s1 ∧
      (∀ r ∈ s1.conversations,
        strLen r.context_summary ≤
          max_summary_length + strLen truncation_marker) ∧
      (∀ r ∈ s1.conversations, ∃ r0 ∈ s.conversations, r = truncRow r0 ∧
        (max_summary_length < strLen r0.context_summary →
          r.context_summary = String.mk
            (r0.context_summary.data.take max_summary_length ++
              truncation_marker.data))) ∧
      (∀ x : String, truncateSummary (truncateSummary x) = truncateSummary x) := by
  refine ⟨_, rfl, ?_, ?_, truncateSummary_idem⟩
  · intro r hr
    have hr2 : r ∈ (convAfterDeletes env s.conversations).map truncRow := hr
    rcases List.mem_map.mp hr2 with ⟨r0, _, rfl⟩
    exact strLen_truncateSummary_le r0.context_summary
  · intro r hr
    have hr2 : r ∈ (convAfterDeletes env s.conversations).map truncRow := hr
    rcases List.mem_map.mp hr2 with ⟨r0, hr0, rfl⟩
    refine ⟨r0, (convAfterDeletes_mem env s.conversations r0 hr0).1, rfl, ?_⟩
    intro hgt
    show truncateSummary r0.context_summary = _
    exact truncateSummary_of_lt _ hgt

/-- C4 witness: the truncation law instantiated at the fixture store. -/
theorem C4_truncation_law_witness :
    ∃ s1, (optimize_conversations envA (some storeWit)).1 = some s1 ∧
      (∀ r ∈ s1.conversations,
        strLen r.context_summary ≤
          max_summary_length + strLen truncation_marker) ∧
      (∀ r ∈ s1.conversations, ∃ r0 ∈ storeWit.conversations,
        r = truncRow r0 ∧
        (max_summary_length < strLen r0.context_summary →
          r.context_summary = String.mk
            (r0.context_summary.data.take max_summary_length ++
              truncation_marker.data))) ∧
      (∀ x : String, truncateSummary (truncateSummary x) = truncateSummary x) :=
  C4_truncation_law envA storeWit

/-! ### Claim C5: behaviour when the store file is missing -/

/-- C5 counterexample: with no store file but a matching temp file in
the project root, run_full_optimization still deletes the temp file:
clean_temp_files has no store-existence guard, so not every step is a
no-op. -/
theorem C5_counterexample :
    worldNoStore.store = none ∧
    (run_full_optimization envA worldNoStore).2.1.temp_files_removed = 1 ∧
    (run_full_optimization envA worldNoStore).1.fs ≠ worldNoStore.fs :=
  ⟨rfl, by decide, by decide⟩

/-- C5 (amended): when the store file is missing, every store-dependent
step is a no-op with zero counts or empty defaults (size inspector,
backup writer, both pruners, compactor), while the temp-artifact cleaner
still runs and deletes the matching root-level files. -/
theorem C5_missing_store (env : Env) (w : World) (h : w.store = none) :
    analyze_context_size w.store = none ∧
    (run_full_optimization env w).2.2 = none ∧
    (run_full_optimization env w).1.backups = w.backups ∧
    (run_full_optimization env w).2.1.conversations_removed = 0 ∧
    (run_full_optimization env w).2.1.code_contexts_removed = 0 ∧
    (run_full_optimization env w).1.store = none ∧
    vacuum_database w.store = false ∧
    (run_full_optimization env w).1.fs =
      w.fs.filter (fun p => !cleanedByTempGlob p) ∧
    (run_full_optimization env w).2.1.temp_files_removed =
      (w.fs.filter (fun p => cleanedByTempGlob p)).length := by
  obtain ⟨ws, wfs, wb⟩ := w
  dsimp only at h
  subst h
  exact ⟨rfl, rfl, rfl, rfl, rfl, rfl, rfl, rfl, rfl⟩

/-- C5 witness: the amended theorem at the no-store fixture world. -/
theorem C5_missing_store_witness :
    worldNoStore.store = none ∧
    (analyze_context_size worldNoStore.store = none ∧
     (run_full_optimization envA worldNoStore).2.2 = none ∧
     (run_full_optimization envA worldNoStore).1.backups =
       worldNoStore.backups ∧
     (run_full_optimization envA worldNoStore).2.1.conversations_removed = 0 ∧
     (run_full_optimization envA worldNoStore).2.1.code_contexts_removed = 0 ∧
     (run_full_optimization envA worldNoStore).1.store = none ∧
     vacuum_database worldNoStore.store = false ∧
     (run_full_optimization envA worldNoStore).1.fs =
       worldNoStore.fs.filter (fun p => !cleanedByTempGlob p) ∧
     (run_full_optimization envA worldNoStore).2.1.temp_files_removed =
       (worldNoStore.fs.filter (fun p => cleanedByTempGlob p)).length) :=
  ⟨rfl, C5_missing_store envA worldNoStore rfl⟩

/-! ### Claim C6: CLI exit behaviour -/

/-- C6 counterexample: the unknown command frobnicate prints the error
outcome but the process exit status is 0, because main never calls
sys.exit; the claim that unknown commands exit non-zero is false. -/
theorem C6_counterexample :
    (main envA worldNoStore ["optimize_context.py", "frobnicate"]).2.1 =
      CliOutcome.unknownCommand ∧
    ¬ ((main envA worldNoStore ["optimize_context.py", "frobnicate"]).2.2 ≠ 0) :=
  ⟨by decide, by decide⟩

/-- C6 (amended): every CLI invocation exits with status 0; an unknown
command prints the error outcome and still exits 0, and each of the four
defined commands runs and exits 0 regardless of how many rows were
pruned. -/
theorem C6_exit_status (env : Env) (w : World) (argv : List String) :
    (main env w argv).2.2 = 0 ∧
    (∀ (prog cmd : String) (rest : List String),
      argv = prog :: cmd :: rest → cmd ∉ knownCommands →
      (main env w argv).2.1 = CliOutcome.unknownCommand) ∧
    (∀ (prog cmd : String) (rest : List String),
      argv = prog :: cmd :: rest → cmd ∈ knownCommands →
      (main env w argv).2.1 = CliOutcome.ran cmd) := by
  refine ⟨?_, ?_, ?_⟩
  · match argv with
    | [] => rfl
    | [_] => rfl
    | p :: cmd :: rest =>
      simp only [main]
      split
      · rfl
      split
      · rfl
      split
      · rfl
      split
      · rfl
      · rfl
  · intro prog cmd rest ha hcmd
    subst ha
    simp only [knownCommands, List.mem_cons, List.not_mem_nil, or_false,
      not_or] at hcmd
    simp only [main]
    rw [if_neg hcmd.1, if_neg hcmd.2.1, if_neg hcmd.2.2.1, if_neg hcmd.2.2.2]
  · intro prog cmd rest ha hcmd
    subst ha
    simp only [knownCommands, List.mem_cons, List.not_mem_nil, or_false] at hcmd
    rcases hcmd with h | h | h | h <;> subst h <;> simp [main]

/-- C6 witness: a defined command runs and exits 0. -/
theorem C6_exit_status_witness :
    (main envA worldNoStore ["optimize_context.py", "analyze"]).2.2 = 0 ∧
    (main envA worldNoStore ["optimize_context.py", "analyze"]).2.1 =
      CliOutcome.ran "analyze" :=
  ⟨(C6_exit_status envA worldNoStore
      ["optimize_context.py", "analyze"]).1,
   (C6_exit_status envA worldNoStore
      ["optimize_context.py", "analyze"]).2.2 "optimize_context.py" "analyze"
      [] rfl (by decide)⟩

/-! ### Claim C7: backup snapshots are distinctly named -/

/-- C7 counterexample: two successful backup calls within the same
second use the same second-granularity timestamp, so the second call
reuses the name and shutil.copy2 overwrites the first snapshot, which is
no longer present afterwards. -/
theorem C7_counterexample :
    (backup_context envA (some storeBak1) []).1 =
      (backup_context envA (some storeBak2)
        (backup_context envA (some storeBak1) []).2).1 ∧
    (backupName envA.stamp, storeBak1) ∈
      (backup_context envA (some storeBak1) []).2 ∧
    (backupName envA.stamp, storeBak1) ∉
      (backup_context envA (some storeBak2)
        (backup_context envA (some storeBak1) []).2).2 :=
  ⟨by decide, by decide, by decide⟩

/-- C7 (amended): every successful backup call writes a snapshot named
from its timestamp; two successful calls whose timestamps differ produce
distinct names, and every backup whose name differs from the later
call's name, in particular the earlier snapshot, is still present after
the later call. -/
theorem C7_distinct_stamps (env1 env2 : Env) (s1 s2 : Store)
    (b0 : List (String × Store))
    (h1 : env1.copyOk = true) (h2 : env2.copyOk = true)
    (hst : env1.stamp ≠ env2.stamp) :
    (backup_context env1 (some s1) b0).1 = some (backupName env1.stamp) ∧
    (backupName env1.stamp, s1) ∈ (backup_context env1 (some s1) b0).2 ∧
    backupName env1.stamp ≠ backupName env2.stamp ∧
    (∀ b ∈ (backup_context env1 (some s1) b0).2,
      b.1 ≠ backupName env2.stamp →
      b ∈ (backup_context env2 (some s2)
        ((backup_context env1 (some s1) b0).2)).2) := by
  have e1 : backup_context env1 (some s1) b0 =
      (some (backupName env1.stamp),
       (backupName env1.stamp, s1) ::
         b0.filter (fun b => decide (b.1 ≠ backupName env1.stamp))) := by
    simp [backup_context, h1]
  have hinj : backupName env1.stamp ≠ backupName env2.stamp :=
    fun hh => hst (backupName_injective hh)
  refine ⟨by rw [e1], by rw [e1]; exact List.mem_cons_self _ _, hinj, ?_⟩
  intro b hb hbne
  have e2 : backup_context env2 (some s2)
      ((backup_context env1 (some s1) b0).2) =
      (some (backupName env2.stamp),
       (backupName env2.stamp, s2) ::
         ((backup_context env1 (some s1) b0).2).filter
           (fun b => decide (b.1 ≠ backupName env2.stamp))) := by
    simp [backup_context, h2]
  rw [e2]
  exact List.mem_cons_of_mem _ (List.mem_filter.mpr ⟨hb, decide_eq_true hbne⟩)

/-- C7 witness: the amended theorem at two calls one second apart. -/
theorem C7_distinct_stamps_witness :
    envA.stamp ≠ envB.stamp ∧
    ((backup_context envA (some storeBak1) []).1 =
      some (backupName envA.stamp) ∧
    (backupName envA.stamp, storeBak1) ∈
      (backup_context envA (some storeBak1) []).2 ∧
    backupName envA.stamp ≠ backupName envB.stamp ∧
    (∀ b ∈ (backup_context envA (some storeBak1) []).2,
      b.1 ≠ backupName envB.stamp →
      b ∈ (backup_context envB (some storeBak2)
        ((backup_context envA (some storeBak1) []).2)).2)) :=
  ⟨by decide,
    C7_distinct_stamps envA envB storeBak1 storeBak2 [] rfl rfl (by decide)⟩

/-! ### Claim C8: what the code-context pruner returns -/

/-- C8 counterexample: two stores and one filesystem on which the
pruner returns exactly the same value (same resulting store, same total
removed) while the removed-due-to-missing-file diagnostics differ, so
that count is not recoverable from the return value: the source only
prints it and returns the single total. -/
theorem C8_counterexample :
    optimize_code_contexts envA fsPresent (some storeMissingFile) =
      optimize_code_contexts envA fsPresent (some storeOldCtx) ∧
    code_contexts_removed_missing fsPresent (some storeMissingFile) ≠
      code_contexts_removed_missing fsPresent (some storeOldCtx) :=
  ⟨by decide, by decide⟩

/-- C8 (amended): the pruner returns the pair of the new store and the
single total removed count (initial minus final); the
removed-due-to-missing-file count is a separately printed diagnostic
equal to the number of fetched rows whose file does not resolve, and it
never exceeds the returned total. -/
theorem C8_return_characterization (env : Env) (fs : List String) (s : Store) :
    ∃ s1, optimize_code_contexts env fs (some s) =
        (some s1, s.code_contexts.length - s1.code_contexts.length) ∧
      s1.code_contexts = ctxAfterDeletes env fs s.code_contexts ∧
      s1.code_contexts.length ≤ s.code_contexts.length ∧
      code_contexts_removed_missing fs (some s) =
        (s.code_contexts.filter (fun r => !decide (r.file_path ∈ fs))).length ∧
      code_contexts_removed_missing fs (some s) ≤
        (optimize_code_contexts env fs (some s)).2 := by
  refine ⟨_, rfl, rfl, ?_, rfl, ?_⟩
  · show (ctxAfterDeletes env fs s.code_contexts).length ≤
      s.code_contexts.length
    exact (ctxAfterDeletes_sublist env fs s.code_contexts).length_le
  · have hsplit := length_filter_split s.code_contexts
      (fun r => decide (r.file_path ∈ fs))
    have hfin : (ctxAfterDeletes env fs s.code_contexts).length ≤
        (s.code_contexts.filter
          (fun r => decide (r.file_path ∈ fs))).length :=
      ((ctxAfterDeletes_subset_afterAge env fs s.code_contexts).trans
        (List.filter_sublist _)).length_le
    show (s.code_contexts.filter
        (fun r => !decide (r.file_path ∈ fs))).length ≤
      s.code_contexts.length - (ctxAfterDeletes env fs s.code_contexts).length
    omega

/-! ### Claim C9: tie-break determinism of the keep-N step -/

/-- C9: the keep-N-most-recent step is a deterministic function of the
store state: two executions on equal conversation tables retain exactly
the same session_ids, also when timestamps tie (the model resolves the
ORDER BY tie deterministically by stored row order, as SQLite does for a
fixed store file), and the retained rows form a subsequence of the
stored rows. -/
theorem C9_keep_step_deterministic (rows1 rows2 : List ConversationRow)
    (h : rows1 = rows2) :
    (keepStepRetained rows1).map (fun r => r.session_id) =
      (keepStepRetained rows2).map (fun r => r.session_id) ∧
    List.Sublist (keepStepRetained rows1) rows1 := by
  subst h
  exact ⟨rfl, keepStepRetained_sublist rows1⟩

/-- C9 witness: two runs over the same table with tied timestamps. -/
theorem C9_keep_step_deterministic_witness :
    rowsTied = rowsTied ∧
    ((keepStepRetained rowsTied).map (fun r => r.session_id) =
      (keepStepRetained rowsTied).map (fun r => r.session_id) ∧
    List.Sublist (keepStepRetained rowsTied) rowsTied) :=
  ⟨rfl, C9_keep_step_deterministic rowsTied rowsTied rfl⟩

/-! ### Claim C10: the conversation pruner removed count -/

/-- C10: the count returned by optimize_conversations equals the initial
row count minus the final row count, the final count never exceeds the
initial one (so the difference is non-negative as an integer), and the
final count equals the count right after the two delete steps: the
truncation map never changes the number of rows. -/
theorem C10_removed_count (env : Env) (s : Store) :
    ∃ s1, (optimize_conversations env (some s)).1 = some s1 ∧
      (optimize_conversations env (some s)).2 =
        s.conversations.length - s1.conversations.length ∧
      s1.conversations.length ≤ s.conversations.length ∧
      s1.conversations.length = (convAfterDeletes env s.conversations).length ∧
      ((optimize_conversations env (some s)).2 : Int) =
        (s.conversations.length : Int) - (s1.conversations.length : Int) := by
  have hle : ((convAfterDeletes env s.conversations).map truncRow).length ≤
      s.conversations.length := by
    rw [List.length_map]
    exact (convAfterDeletes_sublist env s.conversations).length_le
  refine ⟨_, rfl, rfl, hle, List.length_map _ _, ?_⟩
  show ((s.conversations.length -
      ((convAfterDeletes env s.conversations).map truncRow).length : Nat) : Int) =
    (s.conversations.length : Int) -
      (((convAfterDeletes env s.conversations).map truncRow).length : Int)
  omega

end ContextOptimize
